import Mathlib

/-!
Verification of the SRV3/YTT subtitle demuxer (libavformat/srv3dec.c) and
decoder (libavcodec/srv3dec.c) against their natural-language specification.

The C sources are shallowly embedded: C strings become `List Char` (attribute
values) or `List Nat` (text bytes), machine integers become `Int`/`Nat`, and
the stateful paragraph/segment loops become explicit state-passing functions.
-/

namespace SRV3

/-! ## Attribute Validator: embedding of strtol (bases 10 and 16) and
    srv3_parse_numeric_value / srv3_parse_numeric_attr / srv3_parse_color_attr -/

/-- Characters skipped by strtol's leading-whitespace scan (C isspace). -/
def isSpaceC (c : Char) : Bool :=
  c = ' ' || c = '\t' || c = '\n' || c = '\x0b' || c = '\x0c' || c = '\r'

/-- Decimal digit test. -/
def isDigit10 (c : Char) : Bool := '0' ≤ c && c ≤ '9'

/-- Hexadecimal digit test. -/
def isDigit16 (c : Char) : Bool :=
  ('0' ≤ c && c ≤ '9') || ('a' ≤ c && c ≤ 'f') || ('A' ≤ c && c ≤ 'F')

/-- Numeric value of a decimal digit. -/
def digitVal10 (c : Char) : Int := (c.toNat : Int) - ('0'.toNat : Int)

/-- Numeric value of a hexadecimal digit. -/
def digitVal16 (c : Char) : Int :=
  if '0' ≤ c && c ≤ '9' then (c.toNat : Int) - ('0'.toNat : Int)
  else if 'a' ≤ c && c ≤ 'f' then (c.toNat : Int) - ('a'.toNat : Int) + 10
  else (c.toNat : Int) - ('A'.toNat : Int) + 10

/-- Consume a maximal run of decimal digits, accumulating the value;
    returns the value and the unconsumed remainder (strtol's digit loop). -/
def takeDigits10 : List Char → Int → Int × List Char
  | [], acc => (acc, [])
  | c :: rest, acc =>
    if isDigit10 c then takeDigits10 rest (acc * 10 + digitVal10 c)
    else (acc, c :: rest)

/-- Consume a maximal run of hexadecimal digits, accumulating the value. -/
def takeDigits16 : List Char → Int → Int × List Char
  | [], acc => (acc, [])
  | c :: rest, acc =>
    if isDigit16 c then takeDigits16 rest (acc * 16 + digitVal16 c)
    else (acc, c :: rest)

/-- Strtol's optional single sign: returns the sign factor and the remainder. -/
def signSplit (s : List Char) : Int × List Char :=
  match s with
  | c :: r => if c = '+' then (1, r) else if c = '-' then (-1, r) else (1, s)
  | [] => (1, s)

/-- Embedding of C `strtol(s, &endptr, 10)` (overflow clamping omitted; the
    attribute values in play are small). Returns the parsed value and the
    suffix starting at `endptr`; when no digits are converted, the C standard
    makes `endptr` point at the original start, hence the `(0, s)` results. -/
def strtol10 (s : List Char) : Int × List Char :=
  let t := s.dropWhile isSpaceC
  let p := signSplit t
  match p.2 with
  | c :: r =>
    if isDigit10 c then
      let d := takeDigits10 (c :: r) 0
      (p.1 * d.1, d.2)
    else (0, s)
  | [] => (0, s)

/-- Embedding of C `strtol(s, &endptr, 16)`: like `strtol10` but also accepts
    an optional `0x`/`0X` marker when a hex digit follows it. -/
def strtol16 (s : List Char) : Int × List Char :=
  let t := s.dropWhile isSpaceC
  let p := signSplit t
  let u :=
    match p.2 with
    | '0' :: x :: r =>
      if (x = 'x' || x = 'X') && (match r with | c :: _ => isDigit16 c | [] => false)
      then r else p.2
    | _ => p.2
  match u with
  | c :: r =>
    if isDigit16 c then
      let d := takeDigits16 (c :: r) 0
      (p.1 * d.1, d.2)
    else (0, s)
  | [] => (0, s)

/-- Result of srv3_parse_numeric_value: `ok` (return 0, *out written),
    `invalidData` (AVERROR_INVALIDDATA, trailing junk at *endptr),
    `outOfRange` (AVERROR(ERANGE), carrying the parsed value for the log). -/
inductive ParseResult where
  | ok (v : Int)
  | invalidData
  | outOfRange (v : Int)
deriving Repr, DecidableEq

/-- Embedding of srv3_parse_numeric_value with base 10 (the `out` pointer is
    non-null at every call site, so the `return parsed` branch is dead):
    reject when the whole string was not consumed, then range-check. -/
def srv3_parse_numeric_value10 (s : List Char) (lo hi : Int) : ParseResult :=
  let r := strtol10 s
  if r.2 ≠ [] then .invalidData
  else if r.1 < lo ∨ hi < r.1 then .outOfRange r.1
  else .ok r.1

/-- Embedding of srv3_parse_numeric_value with base 16. -/
def srv3_parse_numeric_value16 (s : List Char) (lo hi : Int) : ParseResult :=
  let r := strtol16 s
  if r.2 ≠ [] then .invalidData
  else if r.1 < lo ∨ hi < r.1 then .outOfRange r.1
  else .ok r.1

/-- Embedding of srv3_parse_numeric_attr: on success the destination is
    overwritten and `true` (C: `== 0`) is returned; on any failure the
    destination keeps its previous value `old`. -/
def srv3_parse_numeric_attr10 (s : List Char) (lo hi : Int) (old : Int) : Int × Bool :=
  match srv3_parse_numeric_value10 s lo hi with
  | .ok v => (v, true)
  | _ => (old, false)

/-- Embedding of srv3_parse_color_attr: skip one leading `#` when present,
    then parse base 16 in [0, 0xFFFFFF]; destination untouched on failure. -/
def srv3_parse_color_attr (s : List Char) (old : Int) : Int :=
  let s' := match s with | '#' :: r => r | _ => s
  match srv3_parse_numeric_value16 s' 0 0xFFFFFF with
  | .ok v => v
  | _ => old

/-- C INT_MAX, the upper bound passed for id/size/time attributes. -/
def INT_MAX : Int := 2147483647

/-! ## Data model (libavcodec/srv3.h) -/

/-- SRV3Pen: a text style. `attrs` is the SRV3PenAttrs bitmask
    (1 = italic, 2 = bold). -/
structure Pen where
  id : Int
  font_size : Int
  font_style : Int
  attrs : Nat
  edge_type : Int
  edge_color : Int
  ruby_part : Int
  foreground_color : Int
  foreground_alpha : Int
  background_color : Int
  background_alpha : Int
deriving Repr, DecidableEq

/-- SRV3WindowPos: a named screen anchor. -/
structure WindowPos where
  id : Int
  point : Int
  x : Int
  y : Int
deriving Repr, DecidableEq

/-- SRV3Segment: a styled run of text, storing only its byte length and its
    pen (the C struct holds a non-owning pointer; linkage is represented by
    list order here). -/
structure Segment where
  size : Nat
  pen : Pen
deriving Repr, DecidableEq

/-- The static srv3_default_pen initializer. -/
def srv3_default_pen : Pen :=
  { id := -1
    font_size := 100
    font_style := 0
    attrs := 0
    edge_type := 0
    edge_color := 0x020202
    ruby_part := 0
    foreground_color := 0xFFFFFF
    foreground_alpha := 254
    background_color := 0x080808
    background_alpha := 192 }

/-! ## Style Table Builder (srv3_read_pen / srv3_read_window_pos / srv3_get_pen) -/

/-- Warnings emitted on the recoverable paths (av_log AV_LOG_WARNING calls),
    each carrying the id it names where the message does. -/
inductive Warn where
  | unhandledPenAttr
  | unknownRubyPart
  | unhandledWpAttr
  | unhandledEventAttr
  | unhandledSegmentAttr
  | danglingWp (id : Int)
  | danglingEventPen (id : Int)
  | danglingSegmentPen (id : Int)
  | unexpectedChildType
  | unknownChildName
deriving Repr, DecidableEq

/-- One attribute of the pen element, applied in srv3_read_pen's loop.
    SRV3_PEN_ATTR_ITALIC = 1 and SRV3_PEN_ATTR_BOLD = 2. -/
def applyPenAttr (pen : Pen) (name value : List Char) : Pen × List Warn :=
  if name = "id".data then
    ({ pen with id := (srv3_parse_numeric_attr10 value 0 INT_MAX pen.id).1 }, [])
  else if name = "sz".data then
    ({ pen with font_size := (srv3_parse_numeric_attr10 value 0 INT_MAX pen.font_size).1 }, [])
  else if name = "fs".data then
    ({ pen with font_style := (srv3_parse_numeric_attr10 value 1 7 pen.font_style).1 }, [])
  else if name = "et".data then
    ({ pen with edge_type := (srv3_parse_numeric_attr10 value 1 4 pen.edge_type).1 }, [])
  else if name = "ec".data then
    ({ pen with edge_color := srv3_parse_color_attr value pen.edge_color }, [])
  else if name = "fc".data then
    ({ pen with foreground_color := srv3_parse_color_attr value pen.foreground_color }, [])
  else if name = "fo".data then
    ({ pen with foreground_alpha := (srv3_parse_numeric_attr10 value 0 0xFF pen.foreground_alpha).1 }, [])
  else if name = "bc".data then
    ({ pen with background_color := srv3_parse_color_attr value pen.background_color }, [])
  else if name = "bo".data then
    ({ pen with background_alpha := (srv3_parse_numeric_attr10 value 0 0xFF pen.background_alpha).1 }, [])
  else if name = "rb".data then
    let rb := (srv3_parse_numeric_attr10 value 0 5 pen.ruby_part).1
    if rb = 3 then ({ pen with ruby_part := 0 }, [.unknownRubyPart])
    else ({ pen with ruby_part := rb }, [])
  else if name = "i".data then
    ({ pen with attrs := pen.attrs ||| (if value = "1".data then 1 else 0) }, [])
  else if name = "b".data then
    ({ pen with attrs := pen.attrs ||| (if value = "1".data then 2 else 0) }, [])
  else (pen, [.unhandledPenAttr])

/-- The attribute loop of srv3_read_pen, starting from a copy of the default
    pen (the memcpy from srv3_default_pen). -/
def srv3_read_pen_attrs (attrs : List (List Char × List Char)) : Pen × List Warn :=
  attrs.foldl
    (fun st a =>
      let r := applyPenAttr st.1 a.1 a.2
      (r.1, st.2 ++ r.2))
    (srv3_default_pen, [])

/-- One attribute of the wp element, applied in srv3_read_window_pos's loop
    (the struct is av_mallocz'ed, so every field starts at 0). -/
def applyWpAttr (wp : WindowPos) (name value : List Char) : WindowPos × List Warn :=
  if name = "id".data then
    ({ wp with id := (srv3_parse_numeric_attr10 value 0 INT_MAX wp.id).1 }, [])
  else if name = "ap".data then
    ({ wp with point := (srv3_parse_numeric_attr10 value 0 8 wp.point).1 }, [])
  else if name = "ah".data then
    ({ wp with x := (srv3_parse_numeric_attr10 value 0 100 wp.x).1 }, [])
  else if name = "av".data then
    ({ wp with y := (srv3_parse_numeric_attr10 value 0 100 wp.y).1 }, [])
  else (wp, [.unhandledWpAttr])

/-- The attribute loop of srv3_read_window_pos. -/
def srv3_read_wp_attrs (attrs : List (List Char × List Char)) : WindowPos × List Warn :=
  attrs.foldl
    (fun st a =>
      let r := applyWpAttr st.1 a.1 a.2
      (r.1, st.2 ++ r.2))
    ({ id := 0, point := 0, x := 0, y := 0 }, [])

/-- A cell of the context's pen list. C distinguishes the statically allocated
    srv3_default_pen from heap pens by address; `isStaticDefault` records that
    identity so the FREE_LIST sentinel comparison can be modelled. -/
structure PenCell where
  isStaticDefault : Bool
  pen : Pen
deriving Repr, DecidableEq

/-- Head-scanning operations that mutate the context's style table: each
    `pen` child runs srv3_read_pen (prepend a pen built from the default),
    each `wp` child runs srv3_read_window_pos; other children are ignored. -/
inductive HeadOp where
  | readPen (attrs : List (List Char × List Char))
  | readWp (attrs : List (List Char × List Char))
deriving Repr

/-- Effect of one head child on ctx->pens: srv3_read_pen prepends a heap pen
    (`pen->next = ctx->pens; ctx->pens = pen`); srv3_read_window_pos leaves
    the pen list alone. -/
def headStep (pens : List PenCell) (op : HeadOp) : List PenCell :=
  match op with
  | .readPen attrs => ⟨false, (srv3_read_pen_attrs attrs).1⟩ :: pens
  | .readWp _ => pens

/-- ctx->pens after srv3_read_header's `ctx->pens = &srv3_default_pen`
    followed by the given head operations. -/
def pensAfter (ops : List HeadOp) : List PenCell :=
  ops.foldl headStep [⟨true, srv3_default_pen⟩]

/-- srv3_get_pen: linear scan, first id match. -/
def srv3_get_pen (pens : List PenCell) (id : Int) : Option PenCell :=
  pens.find? (fun c => c.pen.id = id)

/-- The pens released by srv3_free_context_data's
    `FREE_LIST(SRV3Pen, ctx->pens, &srv3_default_pen)`: walk the list freeing
    each cell until the cursor is pointer-equal to the static default pen. -/
def freedPens (pens : List PenCell) : List PenCell :=
  pens.takeWhile (fun c => !c.isStaticDefault)

/-- Value-level view of srv3_get_pen for the body builder: linear scan over
    the context's pens, first id match wins. -/
def getPenById (pens : List Pen) (id : Int) : Option Pen :=
  pens.find? (fun p => p.id = id)

/-! ## Text Normalizer (srv3_clean_segment_text), over UTF-8 bytes -/

/-- Test whether `pat` occurs at the head of `s` (the byte-wise comparison
    strstr performs at each candidate offset). -/
def startsWithB : List Nat → List Nat → Bool
  | [], _ => true
  | _ :: _, [] => false
  | p :: ps, b :: bs => (p == b) && startsWithB ps bs

/-- Embedding of `strstr`: index of the first occurrence of `pat` (taken
    non-empty at both call sites) in the haystack. -/
def findSub (pat : List Nat) : List Nat → Option Nat
  | [] => none
  | b :: bs =>
    if startsWithB pat (b :: bs) then some 0
    else (findSub pat bs).map (· + 1)

/-- UTF-8 bytes of "​" (ZERO_WIDTH_SPACE). -/
def ZERO_WIDTH_SPACE : List Nat := [0xE2, 0x80, 0x8B]

/-- UTF-8 bytes of YTSUBCONV_PADDING_SPACE: marker, space, marker (7 bytes). -/
def YTSUBCONV_PADDING_SPACE : List Nat :=
  ZERO_WIDTH_SPACE ++ [0x20] ++ ZERO_WIDTH_SPACE

/-- One pass structure of srv3_clean_segment_text's `while (1)` loop: find
    the first padding occurrence, else the first lone marker; copy the bytes
    before it verbatim (`end = pad ? pad : zw`) and resume after the match.
    `fuel` bounds the iterations; every recursive call drops at least 3
    bytes, so the fuel supplied by the wrapper is never exhausted. -/
def cleanGo : Nat → List Nat → List Nat
  | 0, s => s
  | fuel + 1, s =>
    match findSub YTSUBCONV_PADDING_SPACE s with
    | some p => s.take p ++ cleanGo fuel (s.drop (p + 7))
    | none =>
      match findSub ZERO_WIDTH_SPACE s with
      | some z => s.take z ++ cleanGo fuel (s.drop (z + 3))
      | none => s

/-- Embedding of srv3_clean_segment_text; the C function also returns the
    new length, available here as `(srv3_clean_segment_text s).length`. -/
def srv3_clean_segment_text (s : List Nat) : List Nat :=
  cleanGo (s.length + 1) s

/-! ## Event/Segment Builder (srv3_read_body) -/

/-- A child node of a `p` element: a text node, an `s` element (with its
    attribute list and the content of its first child, `none` when it has no
    children), or any other node (unexpected type or unknown element name,
    warned about and skipped). -/
inductive PChild where
  | textNode (content : List Nat)
  | spanNode (attrs : List (List Char × List Char)) (content : Option (List Nat))
  | otherNode
deriving Repr

/-- The `s` element's attribute loop (lines 337-351): a valid `p` attribute
    overrides the paragraph-level pen; a dangling id warns and leaves the
    pen as it was; other attribute names warn and are skipped. -/
def resolveSegmentPen (pens : List Pen) (eventPen : Pen)
    (attrs : List (List Char × List Char)) : Pen × List Warn :=
  attrs.foldl
    (fun st a =>
      if a.1 = "p".data then
        match srv3_parse_numeric_value10 a.2 0 INT_MAX with
        | .ok id =>
          match getPenById pens id with
          | some pen => (pen, st.2)
          | none => (st.1, st.2 ++ [.danglingSegmentPen id])
        | _ => st
      else (st.1, st.2 ++ [.unhandledSegmentAttr]))
    (eventPen, [])

/-- State of srv3_read_body's inner loop over one paragraph's children:
    the event's shared text buffer, `lastlen`, the segments built so far in
    reverse order (the head is `segments_tail`), and the warnings emitted. -/
structure SegLoopState where
  buf : List Nat
  lastlen : Nat
  rsegs : List Segment
  warns : List Warn
deriving Repr

/-- Newline or carriage return byte (the whitespace-only test of line 358). -/
def isNlCr (b : Nat) : Bool := b = 10 || b = 13

/-- Embedding of the test `segment->next == NULL` at line 365: at that point
    `segment` was just av_mallocz'ed and its `next` field has never been
    assigned, so the comparison is identically true. -/
def segmentNextIsNull : Bool := true

/-- Lines 353-381: clean the node's text; a non-empty whitespace-only run is
    appended to the buffer and folded into `segments_tail` under the code's
    condition (otherwise left unattributed); any other non-empty text becomes
    a new segment whose size covers every byte appended since `lastlen`. -/
def srv3_seg_text (st : SegLoopState) (pen : Pen) (content : List Nat) : SegLoopState :=
  let ct := srv3_clean_segment_text content
  if ct.length > 0 then
    if ct.all isNlCr then
      let buf' := st.buf ++ ct
      match st.rsegs with
      | tail :: rest =>
        if tail.pen.font_size = pen.font_size || segmentNextIsNull then
          { st with buf := buf', lastlen := buf'.length,
                    rsegs := { tail with size := tail.size + ct.length } :: rest }
        else { st with buf := buf' }
      | [] => { st with buf := buf' }
    else
      let buf' := st.buf ++ ct
      { st with buf := buf', lastlen := buf'.length,
                rsegs := ⟨buf'.length - st.lastlen, pen⟩ :: st.rsegs }
  else st

/-- One iteration of the child-node loop (lines 316-382). -/
def srv3_seg_step (pens : List Pen) (eventPen : Pen) (st : SegLoopState)
    (node : PChild) : SegLoopState :=
  match node with
  | .otherNode => { st with warns := st.warns ++ [.unexpectedChildType] }
  | .textNode content => srv3_seg_text st eventPen content
  | .spanNode _ none => st
  | .spanNode attrs (some content) =>
    let pr := resolveSegmentPen pens eventPen attrs
    srv3_seg_text { st with warns := st.warns ++ pr.2 } pr.1 content

/-- The initial loop state of one paragraph (empty buffer after
    av_bprint_clear, `lastlen = 0`, no segments). -/
def initSegState : SegLoopState := ⟨[], 0, [], []⟩

/-- The whole child-node loop of one paragraph. -/
def srv3_seg_run (pens : List Pen) (eventPen : Pen) (nodes : List PChild) : SegLoopState :=
  nodes.foldl (srv3_seg_step pens eventPen) initSegState

/-- The event's committed segment list, in document order. -/
def SegLoopState.segments (st : SegLoopState) : List Segment := st.rsegs.reverse

/-- Sum of the sizes of an event's segments. -/
def sumSizes (segs : List Segment) : Nat := (segs.map Segment.size).sum

/-- Modelled from the spec's words (section 4.4, segment-merge rule), for
    comparison with `srv3_seg_text`: a whitespace-only run is folded into the
    previous segment when that segment's pen has the same font size as this
    run's pen, or when this is the last node in the paragraph; otherwise its
    bytes stay unattributed for the next real segment. -/
def spec_seg_text (st : SegLoopState) (pen : Pen) (content : List Nat)
    (isLastNode : Bool) : SegLoopState :=
  let ct := srv3_clean_segment_text content
  if ct.length > 0 then
    if ct.all isNlCr then
      let buf' := st.buf ++ ct
      match st.rsegs with
      | tail :: rest =>
        if tail.pen.font_size = pen.font_size || isLastNode then
          { st with buf := buf', lastlen := buf'.length,
                    rsegs := { tail with size := tail.size + ct.length } :: rest }
        else { st with buf := buf' }
      | [] => { st with buf := buf' }
    else
      let buf' := st.buf ++ ct
      { st with buf := buf', lastlen := buf'.length,
                rsegs := ⟨buf'.length - st.lastlen, pen⟩ :: st.rsegs }
  else st

/-- Modelled from the spec's words: the child-node loop with the spec's fold
    condition, tracking whether the current node is the paragraph's last. -/
def spec_seg_run_go (pens : List Pen) (eventPen : Pen) :
    SegLoopState → List PChild → SegLoopState
  | st, [] => st
  | st, node :: rest =>
    let st' :=
      match node with
      | .otherNode => { st with warns := st.warns ++ [.unexpectedChildType] }
      | .textNode content => spec_seg_text st eventPen content rest.isEmpty
      | .spanNode _ none => st
      | .spanNode attrs (some content) =>
        let pr := resolveSegmentPen pens eventPen attrs
        spec_seg_text { st with warns := st.warns ++ pr.2 } pr.1 content rest.isEmpty
    spec_seg_run_go pens eventPen st' rest

/-- Modelled from the spec's words: the whole loop, from the initial state. -/
def spec_seg_run (pens : List Pen) (eventPen : Pen) (nodes : List PChild) : SegLoopState :=
  spec_seg_run_go pens eventPen initSegState nodes

/-- Per-event attribute state of srv3_read_body's `p` loop (lines 284-314):
    `start`/`duration` persist across paragraphs in C (they are only written
    by a successful `t`/`d` parse), `wp` starts absent, and `event_pen`
    starts at the built-in default for every paragraph. -/
structure EventAttrState where
  start : Int
  duration : Int
  wp : Option WindowPos
  eventPen : Pen
deriving Repr

/-- One iteration of the event attribute loop. On the `wp` branch the C code
    ignores the parse result and looks up a possibly indeterminate stack id;
    the model only follows the defined path where the parse succeeded. -/
def srv3_event_attr (pens : List Pen) (wps : List WindowPos)
    (st : EventAttrState) (name value : List Char) : EventAttrState × List Warn :=
  if name = "t".data then
    ({ st with start := (srv3_parse_numeric_attr10 value 0 INT_MAX st.start).1 }, [])
  else if name = "d".data then
    ({ st with duration := (srv3_parse_numeric_attr10 value 0 INT_MAX st.duration).1 }, [])
  else if name = "wp".data then
    match srv3_parse_numeric_value10 value 0 INT_MAX with
    | .ok id =>
      match wps.find? (fun w => w.id = id) with
      | some w => ({ st with wp := some w }, [])
      | none => (st, if st.wp = none then [.danglingWp id] else [])
    | _ => (st, [])
  else if name = "p".data then
    match srv3_parse_numeric_value10 value 0 INT_MAX with
    | .ok id =>
      match getPenById pens id with
      | some pen => ({ st with eventPen := pen }, [])
      | none => (st, [.danglingEventPen id])
    | _ => (st, [])
  else if name = "ws".data then (st, [])
  else (st, [.unhandledEventAttr])

/-- The whole event attribute loop, starting from the values the previous
    paragraph left in `start`/`duration` and the per-paragraph defaults. -/
def srv3_read_event_attrs (pens : List Pen) (wps : List WindowPos)
    (start0 duration0 : Int) (attrs : List (List Char × List Char)) :
    EventAttrState × List Warn :=
  attrs.foldl
    (fun acc a =>
      let r := srv3_event_attr pens wps acc.1 a.1 a.2
      (r.1, acc.2 ++ r.2))
    (⟨start0, duration0, none, srv3_default_pen⟩, [])

/-! ## Renderer (libavcodec/srv3dec.c) -/

/-- Embedding of srv3_point_to_ass_alignment. -/
def srv3_point_to_ass_alignment (point : Int) : Int :=
  if point ≥ 6 then point - 5
  else if point < 3 then point + 7
  else point + 1

/-- The real value of `(2.0 + coord * 0.96) / 100.0 * max`; the doubles in
    play are modelled as exact rationals. -/
def srv3_coord_exact (coord mx : Int) : ℚ :=
  (2 + (coord : ℚ) * (96 / 100)) / 100 * (mx : ℚ)

/-- C double-to-int conversion: truncation toward zero. -/
def truncToInt (q : ℚ) : Int := if 0 ≤ q then ⌊q⌋ else ⌈q⌉

/-- Embedding of srv3_coord_to_ass (the function returns `int`). -/
def srv3_coord_to_ass (coord mx : Int) : Int :=
  truncToInt (srv3_coord_exact coord mx)

/-- Embedding of the RGB2BGR channel swap. The colour operands are parsed
    into [0, 0xFFFFFF], so the C int arithmetic is modelled on Nat. -/
def RGB2BGR (color : Int) : Nat :=
  ((color.toNat &&& 0xFF) <<< 16) ||| (color.toNat &&& 0xFF00) |||
    ((color.toNat &&& 0xFF0000) >>> 16)

/-- Embedding of RGB2ASS: swapped channels with `0xFF - alpha` packed into
    the high byte. -/
def RGB2ASS (color alpha : Int) : Nat :=
  RGB2BGR color ||| ((0xFF - alpha).toNat <<< 24)

/-- The OutlineColour argument of the Style record emitted by
    srv3_decoder_init (lines 227-229). -/
def styleOutlineColour (pen : Pen) : Nat :=
  if pen.background_alpha > 0 then RGB2ASS pen.background_color pen.background_alpha
  else RGB2ASS pen.edge_color pen.foreground_alpha

/-- The BackColour argument of the Style record (lines 230-232, the same
    selection as the outline colour). -/
def styleBackColour (pen : Pen) : Nat :=
  if pen.background_alpha > 0 then RGB2ASS pen.background_color pen.background_alpha
  else RGB2ASS pen.edge_color pen.foreground_alpha

/-! ## Theorems -/

/-- Claim C5: the anchor-point remap `f(p) = p-5 if p>=6, p+7 if p<3, else
    p+1` is a bijection from {0..8} onto {1..9}, with f(0)=7, f(1)=8,
    f(2)=9, f(3)=4, f(6)=1, f(8)=3. -/
theorem alignment_remap_bijection :
    (∀ i : Fin 9, ∃ j : Fin 9, srv3_point_to_ass_alignment (i.val : Int) = (j.val : Int) + 1) ∧
    (∀ i j : Fin 9,
      srv3_point_to_ass_alignment (i.val : Int) = srv3_point_to_ass_alignment (j.val : Int) →
      i = j) ∧
    (∀ j : Fin 9, ∃ i : Fin 9, srv3_point_to_ass_alignment (i.val : Int) = (j.val : Int) + 1) ∧
    srv3_point_to_ass_alignment 0 = 7 ∧ srv3_point_to_ass_alignment 1 = 8 ∧
    srv3_point_to_ass_alignment 2 = 9 ∧ srv3_point_to_ass_alignment 3 = 4 ∧
    srv3_point_to_ass_alignment 6 = 1 ∧ srv3_point_to_ass_alignment 8 = 3 := by
  decide

/-- Claim C8 (failing input): on the byte string marker-marker-space-marker,
    srv3_clean_segment_text outputs the leading lone marker verbatim — the
    copy window `end = pad ? pad : zw` runs to the first padding occurrence
    and skips past it, never revisiting the copied bytes — so a second
    application removes that marker and the cleaner is not idempotent. -/
theorem clean_not_idempotent_on_marker_before_padding :
    srv3_clean_segment_text (ZERO_WIDTH_SPACE ++ YTSUBCONV_PADDING_SPACE) = ZERO_WIDTH_SPACE ∧
    srv3_clean_segment_text (srv3_clean_segment_text
      (ZERO_WIDTH_SPACE ++ YTSUBCONV_PADDING_SPACE)) = [] ∧
    srv3_clean_segment_text (srv3_clean_segment_text
        (ZERO_WIDTH_SPACE ++ YTSUBCONV_PADDING_SPACE)) ≠
      srv3_clean_segment_text (ZERO_WIDTH_SPACE ++ YTSUBCONV_PADDING_SPACE) := by
  decide

/-- Claim C1 (failing input): a paragraph [span pen 1 "A", text "\n",
    span pen 1 "B"] where pen 1 has font size 200 and the newline run's pen
    (the default event pen) has font size 100. The newline is not the last
    node and the font sizes differ, so the spec's rule leaves its byte for
    the next segment (sizes [1, 2]); the code folds it into the previous
    segment regardless (sizes [2, 1]) because its condition tests the fresh
    segment's own null next pointer instead of the node's. -/
theorem whitespace_fold_ignores_font_size :
    (srv3_seg_run [{ srv3_default_pen with id := 1, font_size := 200 }, srv3_default_pen]
        srv3_default_pen
        [ .spanNode [("p".data, "1".data)] (some [65]),
          .textNode [10],
          .spanNode [("p".data, "1".data)] (some [66]) ]).segments.map Segment.size
      = [2, 1] ∧
    (spec_seg_run [{ srv3_default_pen with id := 1, font_size := 200 }, srv3_default_pen]
        srv3_default_pen
        [ .spanNode [("p".data, "1".data)] (some [65]),
          .textNode [10],
          .spanNode [("p".data, "1".data)] (some [66]) ]).segments.map Segment.size
      = [1, 2] := by
  decide

/-- Claim C2 counterexample: with a style table containing pen 5 (font size
    200), a paragraph attribute `p="5"` resolves the event pen to pen 5; a
    span inside it naming the missing pen 99 then warns but keeps pen 5 —
    the event-level pen, not the built-in default pen as the claim states. -/
theorem segment_dangling_pen_keeps_event_pen_cex :
    (srv3_read_event_attrs [{ srv3_default_pen with id := 5, font_size := 200 }, srv3_default_pen]
        [] 0 0 [("p".data, "5".data)]).1.eventPen
      = { srv3_default_pen with id := 5, font_size := 200 } ∧
    resolveSegmentPen [{ srv3_default_pen with id := 5, font_size := 200 }, srv3_default_pen]
        { srv3_default_pen with id := 5, font_size := 200 } [("p".data, "99".data)]
      = ({ srv3_default_pen with id := 5, font_size := 200 }, [.danglingSegmentPen 99]) ∧
    ({ srv3_default_pen with id := 5, font_size := 200 } : Pen) ≠ srv3_default_pen := by
  decide

/-- Claim C2 as amended: for an event or span attribute `p` naming a pen id
    absent from the style table, parsing continues and a warning carrying the
    missing id is emitted; the event resolves to the built-in default pen,
    while the segment resolves to the surrounding event's pen (the built-in
    default only when the paragraph itself carried no valid pen reference). -/
theorem dangling_pen_falls_back (pens : List Pen) (wps : List WindowPos)
    (s0 d0 : Int) (eventPen : Pen) (value : List Char) (id : Int)
    (hparse : srv3_parse_numeric_value10 value 0 INT_MAX = .ok id)
    (hmiss : getPenById pens id = none) :
    (srv3_read_event_attrs pens wps s0 d0 [("p".data, value)]).1.eventPen = srv3_default_pen ∧
    (srv3_read_event_attrs pens wps s0 d0 [("p".data, value)]).2 = [.danglingEventPen id] ∧
    resolveSegmentPen pens eventPen [("p".data, value)] = (eventPen, [.danglingSegmentPen id]) := by
  unfold srv3_read_event_attrs resolveSegmentPen
  simp [srv3_event_attr, hparse, hmiss]

/-- Witness for `dangling_pen_falls_back`: pen id 7 over an empty table, with
    a non-default event-level pen. -/
theorem dangling_pen_falls_back_witness :
    (srv3_read_event_attrs [] [] 0 0 [("p".data, "7".data)]).1.eventPen = srv3_default_pen ∧
    (srv3_read_event_attrs [] [] 0 0 [("p".data, "7".data)]).2 = [.danglingEventPen 7] ∧
    resolveSegmentPen [] { srv3_default_pen with font_size := 200 } [("p".data, "7".data)]
      = ({ srv3_default_pen with font_size := 200 }, [.danglingSegmentPen 7]) :=
  dangling_pen_falls_back [] [] 0 0 { srv3_default_pen with font_size := 200 }
    "7".data 7 (by decide) (by decide)

/-- Claim C6: an attribute string that strtol fully consumes to a value
    outside [lo, hi] makes srv3_parse_numeric_value return the range error
    (carrying the parsed value) and srv3_parse_numeric_attr leave the
    destination at exactly its pre-call value. -/
theorem numeric_out_of_range_keeps_destination (s : List Char) (lo hi old v : Int)
    (hparse : strtol10 s = (v, []))
    (hrange : v < lo ∨ hi < v) :
    srv3_parse_numeric_value10 s lo hi = .outOfRange v ∧
    srv3_parse_numeric_attr10 s lo hi old = (old, false) := by
  have hv : srv3_parse_numeric_value10 s lo hi = .outOfRange v := by
    unfold srv3_parse_numeric_value10
    rw [hparse]
    simp [hrange]
  refine ⟨hv, ?_⟩
  unfold srv3_parse_numeric_attr10
  rw [hv]

/-- Witness for `numeric_out_of_range_keeps_destination`: "200" against
    [0, 100] with prior destination value 42. -/
theorem numeric_out_of_range_keeps_destination_witness :
    srv3_parse_numeric_value10 "200".data 0 100 = .outOfRange 200 ∧
    srv3_parse_numeric_attr10 "200".data 0 100 42 = (42, false) :=
  numeric_out_of_range_keeps_destination "200".data 0 100 42 200 (by decide) (by decide)

/-- A decimal digit is not one of strtol's whitespace characters. -/
theorem digit_not_space {c : Char} (h : isDigit10 c = true) : isSpaceC c = false := by
  have h1 : '0' ≤ c := by
    unfold isDigit10 at h
    simp only [Bool.and_eq_true, decide_eq_true_eq] at h
    exact h.1
  unfold isSpaceC
  simp only [Bool.or_eq_false_iff, decide_eq_false_iff_not]
  refine ⟨⟨⟨⟨⟨?_, ?_⟩, ?_⟩, ?_⟩, ?_⟩, ?_⟩ <;> rintro rfl <;> exact absurd h1 (by decide)

/-- Dropping leading whitespace ignores an all-whitespace block. -/
theorem dropWhile_spaces_append (ws r : List Char) (h : ws.all isSpaceC = true) :
    (ws ++ r).dropWhile isSpaceC = r.dropWhile isSpaceC := by
  induction ws with
  | nil => simp
  | cons a l ih =>
    simp only [List.all_cons, Bool.and_eq_true] at h
    simp only [List.cons_append, List.dropWhile_cons, h.1, if_true]
    exact ih h.2

/-- The digit loop consumes exactly an all-digit block when what follows does
    not begin with a digit. -/
theorem takeDigits10_digits_append (junk : List Char)
    (hj : ∀ c l, junk = c :: l → isDigit10 c = false) :
    ∀ ds acc, ds.all isDigit10 = true → (takeDigits10 (ds ++ junk) acc).2 = junk := by
  intro ds
  induction ds with
  | nil =>
    intro acc _
    cases hk : junk with
    | nil => simp [hk, takeDigits10]
    | cons c l =>
      have := hj c l hk
      simp [takeDigits10, this]
  | cons d ds' ih =>
    intro acc hall
    simp only [List.all_cons, Bool.and_eq_true] at hall
    simp only [List.cons_append, takeDigits10, hall.1, if_true]
    exact ih _ hall.2

/-- The sign scanner is the identity on a string starting with a digit. -/
theorem signSplit_cons_digit {c : Char} (l : List Char) (hc : isDigit10 c = true) :
    signSplit (c :: l) = (1, c :: l) := by
  have h1 : c ≠ '+' := by rintro rfl; exact absurd hc (by decide)
  have h2 : c ≠ '-' := by rintro rfl; exact absurd hc (by decide)
  simp only [signSplit]
  rw [if_neg h1, if_neg h2]

/-- Shape lemma for strtol: on whitespace, an optional sign, a non-empty
    digit run, and a remainder that does not begin with a digit, the
    unconsumed suffix is exactly that remainder. -/
theorem strtol10_rest (ws sg ds junk : List Char)
    (hws : ws.all isSpaceC = true)
    (hsg : sg = [] ∨ sg = ['+'] ∨ sg = ['-'])
    (hne : ds ≠ []) (hds : ds.all isDigit10 = true)
    (hj : ∀ c l, junk = c :: l → isDigit10 c = false) :
    (strtol10 (ws ++ sg ++ ds ++ junk)).2 = junk := by
  obtain ⟨d, ds', rfl⟩ : ∃ d ds', ds = d :: ds' := by
    cases ds with
    | nil => exact absurd rfl hne
    | cons d ds' => exact ⟨d, ds', rfl⟩
  have hd : isDigit10 d = true := by
    simp only [List.all_cons, Bool.and_eq_true] at hds
    exact hds.1
  have hdsp := digit_not_space hd
  have htd := takeDigits10_digits_append junk hj (d :: ds') 0 hds
  simp only [List.cons_append] at htd
  unfold strtol10
  rcases hsg with rfl | rfl | rfl
  · simp only [List.append_nil, List.append_assoc, List.cons_append]
    rw [dropWhile_spaces_append _ _ hws]
    simp only [List.dropWhile_cons, hdsp, Bool.false_eq_true, if_false]
    rw [signSplit_cons_digit _ hd]
    simp [hd, htd]
  · simp only [List.append_assoc, List.singleton_append, List.cons_append]
    rw [dropWhile_spaces_append _ _ hws]
    simp only [List.dropWhile_cons, show isSpaceC '+' = false from by decide,
      Bool.false_eq_true, if_false]
    simp only [signSplit, if_pos rfl]
    simp [hd, htd]
  · simp only [List.append_assoc, List.singleton_append, List.cons_append]
    rw [dropWhile_spaces_append _ _ hws]
    simp only [List.dropWhile_cons, show isSpaceC '-' = false from by decide,
      Bool.false_eq_true, if_false]
    simp only [signSplit, show ('-' : Char) ≠ '+' from by decide, if_neg, if_pos rfl]
    simp [hd, htd]

/-- Claim C7 counterexample: the string " 5" contains a leading non-numeric
    character, yet integer attribute parsing succeeds with value 5 instead
    of rejecting it — strtol trims leading whitespace before the numeral. -/
theorem numeric_parse_accepts_leading_space_cex :
    isDigit10 ' ' = false ∧
    srv3_parse_numeric_value10 " 5".data 0 100 = .ok 5 ∧
    srv3_parse_numeric_value10 " 5".data 0 100 ≠ .invalidData := by
  decide

/-- Claim C7 as amended: after strtol's optional leading whitespace and
    single sign, the entire remainder must be consumed as the numeral — a
    well-formed numeral followed by any non-digit suffix is rejected with
    the invalid-value error, while the same string without the suffix is
    not. (Leading whitespace and a sign are trimmed by strtol, contrary to
    the original claim.) -/
theorem numeric_parse_consumes_entire_remainder (ws sg ds : List Char)
    (c : Char) (l : List Char) (lo hi : Int)
    (hws : ws.all isSpaceC = true)
    (hsg : sg = [] ∨ sg = ['+'] ∨ sg = ['-'])
    (hne : ds ≠ []) (hds : ds.all isDigit10 = true)
    (hc : isDigit10 c = false) :
    srv3_parse_numeric_value10 (ws ++ sg ++ ds ++ (c :: l)) lo hi = .invalidData ∧
    srv3_parse_numeric_value10 (ws ++ sg ++ ds) lo hi ≠ .invalidData := by
  have h1 := strtol10_rest ws sg ds (c :: l) hws hsg hne hds
    (by intro c' l' he; injection he with e1 _; rw [← e1]; exact hc)
  have h2 := strtol10_rest ws sg ds [] hws hsg hne hds
    (by intro c' l' he; exact List.noConfusion he)
  rw [List.append_nil] at h2
  constructor
  · unfold srv3_parse_numeric_value10
    dsimp only
    rw [h1]
    simp
  · unfold srv3_parse_numeric_value10
    dsimp only
    rw [h2]
    simp only [ne_eq, not_true_eq_false, if_false]
    split <;> simp

/-- Witness for `numeric_parse_consumes_entire_remainder`: " -5x" is
    rejected while " -5" is not. -/
theorem numeric_parse_consumes_entire_remainder_witness :
    srv3_parse_numeric_value10 (" ".data ++ ['-'] ++ "5".data ++ ('x' :: [])) 0 100
      = .invalidData ∧
    srv3_parse_numeric_value10 (" ".data ++ ['-'] ++ "5".data) 0 100 ≠ .invalidData :=
  numeric_parse_consumes_entire_remainder " ".data ['-'] "5".data 'x' [] 0 100
    (by decide) (Or.inr (Or.inr rfl)) (by decide) (by decide) (by decide)

/-- A value below 2^n or'ed with a multiple of 2^n is their sum (the bits are
    disjoint). -/
theorem lor_mul_two_pow_eq_add : ∀ (n a b : Nat), a < 2 ^ n → a ||| b * 2 ^ n = a + b * 2 ^ n := by
  intro n
  induction n with
  | zero =>
    intro a b h
    have ha : a = 0 := by omega
    subst ha
    simp
  | succ n ih =>
    intro a b h
    have hd := Nat.bit_decomp a
    have h2 : a.div2 < 2 ^ n := by
      rw [Nat.div2_val]
      rw [Nat.pow_succ] at h
      omega
    have hb : b * 2 ^ (n + 1) = Nat.bit false (b * 2 ^ n) := by
      rw [Nat.bit_val]
      rw [Nat.pow_succ]
      simp
      ring
    calc a ||| b * 2 ^ (n + 1)
        = Nat.bit a.bodd a.div2 ||| Nat.bit false (b * 2 ^ n) := by rw [hd, ← hb]
      _ = Nat.bit (a.bodd || false) (a.div2 ||| b * 2 ^ n) := Nat.lor_bit _ _ _ _
      _ = Nat.bit a.bodd (a.div2 + b * 2 ^ n) := by rw [Bool.or_false, ih _ _ h2]
      _ = a + b * 2 ^ (n + 1) := by
          have hval := Nat.bodd_add_div2 a
          rw [Nat.bit_val, Nat.pow_succ]
          have hmul : b * (2 ^ n * 2) = b * 2 ^ n * 2 := by ring
          omega

/-- The swapped colour channels occupy only the low 24 bits. -/
theorem RGB2BGR_lt (color : Int) : RGB2BGR color < 2 ^ 24 := by
  unfold RGB2BGR
  apply Nat.or_lt_two_pow
  apply Nat.or_lt_two_pow
  · rw [Nat.shiftLeft_eq]
    have h1 : color.toNat &&& 0xFF ≤ 0xFF := Nat.and_le_right
    calc (color.toNat &&& 0xFF) * 2 ^ 16 ≤ 0xFF * 2 ^ 16 := Nat.mul_le_mul_right _ h1
      _ < 2 ^ 24 := by norm_num
  · have h1 : color.toNat &&& 0xFF00 ≤ 0xFF00 := Nat.and_le_right
    calc color.toNat &&& 0xFF00 ≤ 0xFF00 := h1
      _ < 2 ^ 24 := by norm_num
  · have h2 : color.toNat &&& 0xFF0000 ≤ 0xFF0000 := Nat.and_le_right
    have h1 : (color.toNat &&& 0xFF0000) >>> 16 ≤ color.toNat &&& 0xFF0000 := by
      rw [Nat.shiftRight_eq_div_pow]
      exact Nat.div_le_self _ _
    calc (color.toNat &&& 0xFF0000) >>> 16 ≤ 0xFF0000 := le_trans h1 h2
      _ < 2 ^ 24 := by norm_num

/-- RGB2ASS splits additively: swapped channels plus the alpha byte shifted
    into the high byte. -/
theorem RGB2ASS_decomp (color alpha : Int) :
    RGB2ASS color alpha = RGB2BGR color + (0xFF - alpha).toNat * 2 ^ 24 := by
  unfold RGB2ASS
  rw [Nat.shiftLeft_eq]
  exact lor_mul_two_pow_eq_add 24 _ _ (RGB2BGR_lt color)

/-- The packed alpha channel (high byte) of an RGB2ASS value. -/
theorem RGB2ASS_div (color alpha : Int) :
    RGB2ASS color alpha / 2 ^ 24 = (0xFF - alpha).toNat := by
  rw [RGB2ASS_decomp]
  rw [Nat.add_mul_div_right _ _ (by norm_num : (0:Nat) < 2 ^ 24)]
  rw [Nat.div_eq_of_lt (RGB2BGR_lt color)]
  omega

/-- The colour part (low 24 bits) of an RGB2ASS value. -/
theorem RGB2ASS_mod (color alpha : Int) :
    RGB2ASS color alpha % 2 ^ 24 = RGB2BGR color := by
  rw [RGB2ASS_decomp]
  rw [Nat.add_mul_mod_self_right]
  exact Nat.mod_eq_of_lt (RGB2BGR_lt color)

/-- Claim C3 counterexample: for the default pen (background alpha 192 > 0,
    foreground alpha 254) the outline and back colours pack alpha byte
    0xFF - 192 = 63, not 0xFF - 254 = 1 as the claim states — in the
    background branch the packed alpha comes from the background alpha. -/
theorem style_outline_alpha_not_foreground_cex :
    srv3_default_pen.background_alpha > 0 ∧
    styleOutlineColour srv3_default_pen / 2 ^ 24 = 63 ∧
    styleBackColour srv3_default_pen / 2 ^ 24 = 63 ∧
    (0xFF - srv3_default_pen.foreground_alpha : Int) = 1 ∧
    (63 : Nat) ≠ 1 := by
  decide

/-- Claim C3 as amended: for every pen, the style record's outline colour and
    back colour are equal and both derive from the background colour when the
    pen's background alpha is greater than 0 and from the edge colour
    otherwise; the packed alpha channel equals 0xFF minus the background
    alpha in the former case and 0xFF minus the foreground alpha in the
    latter. -/
theorem style_outline_back_colour_sources (pen : Pen) :
    styleBackColour pen = styleOutlineColour pen ∧
    styleOutlineColour pen / 2 ^ 24 =
      (0xFF - (if pen.background_alpha > 0 then pen.background_alpha
               else pen.foreground_alpha)).toNat ∧
    styleOutlineColour pen % 2 ^ 24 =
      RGB2BGR (if pen.background_alpha > 0 then pen.background_color
               else pen.edge_color) := by
  refine ⟨rfl, ?_, ?_⟩ <;>
    unfold styleOutlineColour <;>
    by_cases h : pen.background_alpha > 0
  · rw [if_pos h, if_pos h, RGB2ASS_div]
  · rw [if_neg h, if_neg h, RGB2ASS_div]
  · rw [if_pos h, if_pos h, RGB2ASS_mod]
  · rw [if_neg h, if_neg h, RGB2ASS_mod]

/-- Claim C4 counterexample: at play resolution W = 1 the truncated
    coordinates coord(0, 1) and coord(50, 1) are both 0, so the mapping the
    function actually computes is not strictly monotonic for every positive
    W. -/
theorem coord_truncation_breaks_strictness_cex :
    srv3_coord_to_ass 0 1 = 0 ∧ srv3_coord_to_ass 50 1 = 0 ∧
    ¬ srv3_coord_to_ass 0 1 < srv3_coord_to_ass 50 1 := by
  have e0 : srv3_coord_exact 0 1 = 1 / 50 := by unfold srv3_coord_exact; norm_num
  have e50 : srv3_coord_exact 50 1 = 1 / 2 := by unfold srv3_coord_exact; norm_num
  have h0 : srv3_coord_to_ass 0 1 = 0 := by
    unfold srv3_coord_to_ass truncToInt
    rw [e0, if_pos (by norm_num), Int.floor_eq_zero_iff]
    simp only [Set.mem_Ico]
    norm_num
  have h50 : srv3_coord_to_ass 50 1 = 0 := by
    unfold srv3_coord_to_ass truncToInt
    rw [e50, if_pos (by norm_num), Int.floor_eq_zero_iff]
    simp only [Set.mem_Ico]
    norm_num
  exact ⟨h0, h50, by simp [h0, h50]⟩

/-- Claim C4 as amended: for every positive W the pre-truncation rational
    value of the coordinate mapping is strictly monotonic on the sample
    points 0, 50, 100; the truncated integer result is monotone
    non-decreasing for every positive W, and strictly increasing once
    W ≥ 3 (in particular at the actual play resolutions). -/
theorem coord_monotone (W : Int) (hW : 0 < W) :
    (srv3_coord_exact 0 W < srv3_coord_exact 50 W ∧
     srv3_coord_exact 50 W < srv3_coord_exact 100 W) ∧
    (srv3_coord_to_ass 0 W ≤ srv3_coord_to_ass 50 W ∧
     srv3_coord_to_ass 50 W ≤ srv3_coord_to_ass 100 W) ∧
    (3 ≤ W →
      srv3_coord_to_ass 0 W < srv3_coord_to_ass 50 W ∧
      srv3_coord_to_ass 50 W < srv3_coord_to_ass 100 W) := by
  have hWQ : (0 : ℚ) < (W : ℚ) := by exact_mod_cast hW
  have e0 : srv3_coord_exact 0 W = (W : ℚ) * (1 / 50) := by
    unfold srv3_coord_exact; push_cast; ring
  have e50 : srv3_coord_exact 50 W = (W : ℚ) * (1 / 2) := by
    unfold srv3_coord_exact; push_cast; ring
  have e100 : srv3_coord_exact 100 W = (W : ℚ) * (49 / 50) := by
    unfold srv3_coord_exact; push_cast; ring
  have lt1 : srv3_coord_exact 0 W < srv3_coord_exact 50 W := by
    rw [e0, e50]; nlinarith
  have lt2 : srv3_coord_exact 50 W < srv3_coord_exact 100 W := by
    rw [e50, e100]; nlinarith
  have nn0 : (0 : ℚ) ≤ srv3_coord_exact 0 W := by rw [e0]; positivity
  have nn50 : (0 : ℚ) ≤ srv3_coord_exact 50 W := by rw [e50]; positivity
  have nn100 : (0 : ℚ) ≤ srv3_coord_exact 100 W := by rw [e100]; positivity
  have t0 : srv3_coord_to_ass 0 W = ⌊srv3_coord_exact 0 W⌋ := by
    unfold srv3_coord_to_ass truncToInt; rw [if_pos nn0]
  have t50 : srv3_coord_to_ass 50 W = ⌊srv3_coord_exact 50 W⌋ := by
    unfold srv3_coord_to_ass truncToInt; rw [if_pos nn50]
  have t100 : srv3_coord_to_ass 100 W = ⌊srv3_coord_exact 100 W⌋ := by
    unfold srv3_coord_to_ass truncToInt; rw [if_pos nn100]
  refine ⟨⟨lt1, lt2⟩, ⟨?_, ?_⟩, ?_⟩
  · rw [t0, t50]; exact Int.floor_le_floor (le_of_lt lt1)
  · rw [t50, t100]; exact Int.floor_le_floor (le_of_lt lt2)
  · intro h3
    have h3Q : (3 : ℚ) ≤ (W : ℚ) := by exact_mod_cast h3
    have g1 : srv3_coord_exact 0 W + 1 ≤ srv3_coord_exact 50 W := by
      rw [e0, e50]; linarith
    have g2 : srv3_coord_exact 50 W + 1 ≤ srv3_coord_exact 100 W := by
      rw [e50, e100]; linarith
    constructor
    · rw [t0, t50]
      have := Int.floor_le_floor g1
      rw [Int.floor_add_one] at this
      omega
    · rw [t50, t100]
      have := Int.floor_le_floor g2
      rw [Int.floor_add_one] at this
      omega

/-- Witness for `coord_monotone`: the actual horizontal play resolution
    W = 1280. -/
theorem coord_monotone_witness :
    (srv3_coord_exact 0 1280 < srv3_coord_exact 50 1280 ∧
     srv3_coord_exact 50 1280 < srv3_coord_exact 100 1280) ∧
    (srv3_coord_to_ass 0 1280 ≤ srv3_coord_to_ass 50 1280 ∧
     srv3_coord_to_ass 50 1280 ≤ srv3_coord_to_ass 100 1280) ∧
    (srv3_coord_to_ass 0 1280 < srv3_coord_to_ass 50 1280 ∧
     srv3_coord_to_ass 50 1280 < srv3_coord_to_ass 100 1280) :=
  ⟨(coord_monotone 1280 (by norm_num)).1,
   (coord_monotone 1280 (by norm_num)).2.1,
   (coord_monotone 1280 (by norm_num)).2.2 (by norm_num)⟩

/-- Folding head operations over a pen list whose last cell is the static
    default (and whose other cells are heap pens) preserves that shape. -/
theorem foldl_headStep_decomp : ∀ (ops : List HeadOp) (hs : List PenCell),
    (∀ c ∈ hs, c.isStaticDefault = false) →
    ∃ hs', ops.foldl headStep (hs ++ [⟨true, srv3_default_pen⟩])
        = hs' ++ [⟨true, srv3_default_pen⟩] ∧
      ∀ c ∈ hs', c.isStaticDefault = false := by
  intro ops
  induction ops with
  | nil => intro hs h2; exact ⟨hs, rfl, h2⟩
  | cons op rest ih =>
    intro hs h2
    cases op with
    | readPen attrs =>
      simp only [List.foldl_cons, headStep]
      have := ih (⟨false, (srv3_read_pen_attrs attrs).1⟩ :: hs)
        (by
          intro c hc
          rcases List.mem_cons.mp hc with rfl | hm
          · rfl
          · exact h2 c hm)
      simpa using this
    | readWp attrs =>
      simp only [List.foldl_cons, headStep]
      exact ih hs h2

/-- Every reachable pen list is some heap pens followed by the static
    default sentinel. -/
theorem pensAfter_decomp (ops : List HeadOp) :
    ∃ hs, pensAfter ops = hs ++ [⟨true, srv3_default_pen⟩] ∧
      ∀ c ∈ hs, c.isStaticDefault = false := by
  have := foldl_headStep_decomp ops [] (by intro c hc; cases hc)
  simpa [pensAfter] using this

/-- FREE_LIST's walk stops exactly at the static sentinel. -/
theorem takeWhile_stops_at_static (hs : List PenCell)
    (h : ∀ c ∈ hs, c.isStaticDefault = false) :
    (hs ++ [(⟨true, srv3_default_pen⟩ : PenCell)]).takeWhile
      (fun c => !c.isStaticDefault) = hs := by
  induction hs with
  | nil => simp [List.takeWhile_cons]
  | cons a l ih =>
    have ha := h a (by simp)
    simp only [List.cons_append, List.takeWhile_cons, ha]
    simp only [Bool.not_false, if_true]
    rw [ih (fun c hc => h c (by simp [hc]))]

/-- Claim C9 as amended: in every reachable parser state after header
    reading begins, the pen table is a non-empty list whose last element is
    the static built-in default pen with identifier -1; lookup of id -1
    always succeeds, returning the first pen whose id is -1 (the built-in
    default unless a declared pen kept the copied id -1); and freeing the
    context releases exactly the pens before the static sentinel — every pen
    except the default singleton. -/
theorem pen_table_default_sentinel (ops : List HeadOp) :
    pensAfter ops ≠ [] ∧
    (pensAfter ops).getLast? = some ⟨true, srv3_default_pen⟩ ∧
    (∃ c, srv3_get_pen (pensAfter ops) (-1) = some c ∧ c.pen.id = -1) ∧
    freedPens (pensAfter ops) = (pensAfter ops).dropLast := by
  obtain ⟨hs, heq, hns⟩ := pensAfter_decomp ops
  rw [heq]
  refine ⟨by simp, List.getLast?_concat _, ?_, ?_⟩
  · cases hfind : (hs ++ [(⟨true, srv3_default_pen⟩ : PenCell)]).find?
        (fun c => c.pen.id = -1) with
    | none =>
      exfalso
      rw [List.find?_eq_none] at hfind
      have := hfind ⟨true, srv3_default_pen⟩ (by simp)
      simp [srv3_default_pen] at this
    | some c =>
      refine ⟨c, hfind, ?_⟩
      have := List.find?_some hfind
      simpa using this
  · unfold freedPens
    rw [takeWhile_stops_at_static hs hns]
    simp

/-- Claim C9 counterexample: after reading a pen element with no id
    attribute (here `<pen sz="200">`), that heap pen keeps the copied id -1
    and shadows the static default on lookup, so lookup of id -1 returns a
    pen that is not the built-in default pen. -/
theorem get_pen_default_id_shadowed_cex :
    srv3_get_pen (pensAfter [.readPen [("sz".data, "200".data)]]) (-1)
      = some ⟨false, { srv3_default_pen with font_size := 200 }⟩ ∧
    ({ srv3_default_pen with font_size := 200 } : Pen) ≠ srv3_default_pen := by
  decide

/-- The invariant of srv3_read_body's child loop: the committed segment
    sizes sum to `lastlen`, which never exceeds the buffer length and equals
    it whenever at least one segment exists. -/
def SegInv (st : SegLoopState) : Prop :=
  sumSizes st.rsegs = st.lastlen ∧ st.lastlen ≤ st.buf.length ∧
    (st.rsegs ≠ [] → st.lastlen = st.buf.length)

/-- Processing one node's text preserves the loop invariant. -/
theorem segText_inv (st : SegLoopState) (pen : Pen) (content : List Nat)
    (h : SegInv st) : SegInv (srv3_seg_text st pen content) := by
  obtain ⟨buf, lastlen, rsegs, warns⟩ := st
  obtain ⟨h1, h2, h3⟩ := h
  dsimp only at h1 h2 h3
  unfold srv3_seg_text
  dsimp only
  by_cases hl : (srv3_clean_segment_text content).length > 0
  · rw [if_pos hl]
    by_cases hws : (srv3_clean_segment_text content).all isNlCr
    · rw [if_pos hws]
      cases rsegs with
      | nil =>
        refine ⟨h1, ?_, ?_⟩
        · dsimp only
          simp only [List.length_append]
          omega
        · intro hne
          exact absurd rfl hne
      | cons tail rest =>
        have hll : lastlen = buf.length := h3 (by simp)
        have h1' : tail.size + (List.map Segment.size rest).sum = lastlen := by
          simpa [sumSizes] using h1
        simp only [segmentNextIsNull, Bool.or_true, if_true]
        refine ⟨?_, ?_, ?_⟩
        · simp only [sumSizes, List.map_cons, List.sum_cons, List.length_append]
          omega
        · exact le_refl _
        · intro _
          rfl
    · rw [if_neg hws]
      have h1' : (List.map Segment.size rsegs).sum = lastlen := by
        simpa [sumSizes] using h1
      refine ⟨?_, ?_, ?_⟩
      · simp only [sumSizes, List.map_cons, List.sum_cons, List.length_append]
        omega
      · exact le_refl _
      · intro _
        rfl
  · rw [if_neg hl]
    exact ⟨h1, h2, h3⟩

/-- Each child-loop iteration preserves the invariant. -/
theorem segStep_inv (pens : List Pen) (eventPen : Pen) (st : SegLoopState) (node : PChild)
    (h : SegInv st) : SegInv (srv3_seg_step pens eventPen st node) := by
  cases node with
  | otherNode => exact h
  | textNode content => exact segText_inv _ _ _ h
  | spanNode attrs oc =>
    cases oc with
    | none => exact h
    | some content => exact segText_inv _ _ _ h

/-- The invariant holds after the whole paragraph loop. -/
theorem segRun_inv (pens : List Pen) (eventPen : Pen) (nodes : List PChild) :
    SegInv (srv3_seg_run pens eventPen nodes) := by
  unfold srv3_seg_run
  have hgen : ∀ st, SegInv st → SegInv (nodes.foldl (srv3_seg_step pens eventPen) st) := by
    induction nodes with
    | nil => intro st h; exact h
    | cons n rest ih => intro st h; exact ih _ (segStep_inv _ _ _ _ h)
  exact hgen initSegState ⟨rfl, Nat.le_refl 0, fun hne => absurd rfl hne⟩

/-- Summing segment sizes is order-independent. -/
theorem sumSizes_reverse (l : List Segment) : sumSizes l.reverse = sumSizes l := by
  unfold sumSizes
  rw [List.map_reverse, List.sum_reverse]

/-- Claim C10: for every event the body builder produces, the sum of its
    segment sizes is at most the byte length of the event's committed text
    buffer, so the renderer's per-segment advance of the text pointer by
    `segment->size` never moves past the end of the packet text. -/
theorem segment_sizes_within_buffer (pens : List Pen) (eventPen : Pen) (nodes : List PChild) :
    sumSizes (srv3_seg_run pens eventPen nodes).segments
      ≤ (srv3_seg_run pens eventPen nodes).buf.length := by
  obtain ⟨h1, h2, _⟩ := segRun_inv pens eventPen nodes
  unfold SegLoopState.segments
  rw [sumSizes_reverse]
  omega

end SRV3
